import Mathlib

/-!
Verification of the core computation of `app.py` (mortgage outcomes
calculator).

Embedding conventions:
* Python floats are modelled as exact rationals (`ℚ`); the spec allows
  "floating-point (double precision) or fixed decimal arithmetic
  consistently", and every claim under study is arithmetic-level, not
  about binary rounding error.
* Python `int` arguments (`years`, `year`) are modelled as `ℤ`.
* A Python expression that can raise `ZeroDivisionError` (float division
  by zero, or `0.0 ** negative`) is modelled in `Option`: `none` is the
  raised exception, `some v` the returned value.
* `(1 + r) ** n` for an integer `n` is the field `zpow` on `ℚ`, which
  agrees with Python float power at integer exponents (negative exponents
  invert; `0.0 ** negative` raises, hence the explicit `none` guards).
-/

/-- `monthly_payment` from app.py lines 13–18.
```
r = apr / 12.0
n = years * 12
if r == 0: return principal / n
return principal * (r * (1 + r) ** n) / ((1 + r) ** n - 1)
```
`none` models the `ZeroDivisionError` cases (`n == 0` in the first
branch; `(1+r) ** n` with zero base and negative exponent, or a zero
denominator, in the second). -/
def monthly_payment (principal apr : ℚ) (years : ℤ) : Option ℚ :=
  let r := apr / 12
  let n := years * 12
  if r = 0 then
    if n = 0 then none else some (principal / (n : ℚ))
  else if 1 + r = 0 ∧ n < 0 then none
  else if (1 + r) ^ n - 1 = 0 then none
  else some (principal * (r * (1 + r) ^ n) / ((1 + r) ^ n - 1))

/-- `remaining_balance` from app.py lines 20–26.
```
r = apr / 12.0
n_total = years_total * 12
n_paid = years_paid * 12
if r == 0: return principal * (1 - n_paid / n_total)
return principal * ((1 + r) ** n_total - (1 + r) ** n_paid) / ((1 + r) ** n_total - 1)
```
`none` models the `ZeroDivisionError` cases, as in `monthly_payment`. -/
def remaining_balance (principal apr : ℚ) (years_total years_paid : ℤ) : Option ℚ :=
  let r := apr / 12
  let n_total := years_total * 12
  let n_paid := years_paid * 12
  if r = 0 then
    if n_total = 0 then none
    else some (principal * (1 - (n_paid : ℚ) / (n_total : ℚ)))
  else if 1 + r = 0 ∧ (n_total < 0 ∨ n_paid < 0) then none
  else if (1 + r) ^ n_total - 1 = 0 then none
  else some (principal * ((1 + r) ^ n_total - (1 + r) ^ n_paid) / ((1 + r) ^ n_total - 1))

/-- `equity_above_down_payment` from app.py lines 28–48: returns the tuple
`(emi, rem_balance, net_after_costs, equity_above_dp)`; an exception in
either amortization call propagates (`none`). -/
def equity_above_down_payment (purchase_price down_payment_amount apr : ℚ)
    (term_years : ℤ) (sale_price : ℚ) (year : ℤ)
    (fees_pct fees_flat service_charge_per_year : ℚ) :
    Option (ℚ × ℚ × ℚ × ℚ) := do
  let loan := purchase_price - down_payment_amount
  let emi ← monthly_payment loan apr term_years
  let rem ← remaining_balance loan apr term_years year
  let net_before_costs := sale_price - rem
  let total_fees := sale_price * fees_pct + fees_flat
  let total_service := service_charge_per_year * (year : ℚ)
  let net_after_costs := net_before_costs - total_fees - total_service
  let above_dp := net_after_costs - down_payment_amount
  return (emi, rem, net_after_costs, above_dp)

/-- Python `round` / float formatting round to nearest, ties to even
(banker's rounding). -/
def roundHalfEven (x : ℚ) : ℤ :=
  if x - ⌊x⌋ < 1 / 2 then ⌊x⌋
  else if 1 / 2 < x - ⌊x⌋ then ⌊x⌋ + 1
  else if ⌊x⌋ % 2 = 0 then ⌊x⌋ else ⌊x⌋ + 1

/-- Python `round(x, dec)` for `dec` decimal digits (exact-rational model). -/
def roundTo (dec : ℕ) (x : ℚ) : ℚ :=
  (roundHalfEven (x * 10 ^ dec) : ℚ) / 10 ^ dec

/-- The dict key produced by the f-string label `f"Sale {sp:,.0f}"`
(app.py lines 125/127).  `{sp:,.0f}` renders the price rounded
half-to-even to an integer, comma-grouped, with a leading minus sign
exactly when `sp` is negative (so `-0.3` renders as `"-0"`, distinct
from `"0"`).  The pair `(roundHalfEven sp, sp < 0)` encodes that label
injectively, so dict-key collisions are modelled faithfully. -/
def labelKey (sp : ℚ) : ℤ × Bool :=
  (roundHalfEven sp, if sp < 0 then true else false)

/-- Python dict assignment `row[k] = v`: updating an existing key keeps
its position, a new key is appended at the end (insertion order). -/
def dictInsert (k : ℤ × Bool) (v : ℚ) : List ((ℤ × Bool) × ℚ) → List ((ℤ × Bool) × ℚ)
  | [] => [(k, v)]
  | (k2, v2) :: rest => if k2 = k then (k, v) :: rest else (k2, v2) :: dictInsert k v rest

/-- The inner loop of app.py lines 119–127, processing the remaining
resale prices with `row` the dict built so far: each step computes the
equity tuple for `(y, sp)`, rounds the `above` component (`round(above)`
when `dec == 0`, else `round(above, dec)`), and stores it under the
price's label key.  An exception aborts the whole loop (`none`). -/
def build_row_go (purchase_price down_payment apr : ℚ) (term_years : ℤ)
    (fees_pct fees_flat service_charge_per_year : ℚ) (dec : ℕ) (y : ℤ) :
    List ℚ → List ((ℤ × Bool) × ℚ) → Option (List ((ℤ × Bool) × ℚ))
  | [], row => some row
  | sp :: rest, row =>
    (equity_above_down_payment purchase_price down_payment apr term_years
        sp y fees_pct fees_flat service_charge_per_year).bind
      (fun t =>
        build_row_go purchase_price down_payment apr term_years
          fees_pct fees_flat service_charge_per_year dec y rest
          (dictInsert (labelKey sp)
            (if dec = 0 then ((roundHalfEven t.2.2.2 : ℤ) : ℚ) else roundTo dec t.2.2.2)
            row))

/-- One row of the results table (app.py lines 118–127): starting from
`row = {"Year": y}` (the `"Year"` key is carried separately as the first
component of the row pair in `table_rows`), run the inner price loop. -/
def build_row (purchase_price down_payment apr : ℚ) (term_years : ℤ)
    (fees_pct fees_flat service_charge_per_year : ℚ) (dec : ℕ)
    (y : ℤ) (resale_prices : List ℚ) : Option (List ((ℤ × Bool) × ℚ)) :=
  build_row_go purchase_price down_payment apr term_years
    fees_pct fees_flat service_charge_per_year dec y resale_prices []

/-- `years = list(range(1, years_max + 1))` (app.py line 115). -/
def years_list (years_max : ℕ) : List ℤ :=
  (List.range years_max).map (fun (i : ℕ) => (i : ℤ) + 1)

/-- The outer loop of app.py lines 117–128 (`table_rows.append(row)`),
processing the remaining years with `acc` the rows built so far. -/
def table_rows_go (purchase_price down_payment apr : ℚ) (term_years : ℤ)
    (resale_prices : List ℚ) (fees_pct fees_flat service_charge_per_year : ℚ)
    (dec : ℕ) :
    List ℤ → List (ℤ × List ((ℤ × Bool) × ℚ)) →
      Option (List (ℤ × List ((ℤ × Bool) × ℚ)))
  | [], acc => some acc
  | y :: rest, acc =>
    (build_row purchase_price down_payment apr term_years
        fees_pct fees_flat service_charge_per_year dec y resale_prices).bind
      (fun cells =>
        table_rows_go purchase_price down_payment apr term_years resale_prices
          fees_pct fees_flat service_charge_per_year dec rest (acc ++ [(y, cells)]))

/-- The grid-building pipeline of app.py lines 115–128: one row per year
in `1..years_max`, each row a `(year, cells)` pair where `cells` is the
label-keyed dict of rounded equity values. -/
def table_rows (purchase_price down_payment apr : ℚ) (term_years : ℤ)
    (resale_prices : List ℚ) (fees_pct fees_flat service_charge_per_year : ℚ)
    (years_max dec : ℕ) : Option (List (ℤ × List ((ℤ × Bool) × ℚ))) :=
  table_rows_go purchase_price down_payment apr term_years resale_prices
    fees_pct fees_flat service_charge_per_year dec (years_list years_max) []

/-- Total number of grid cells (price columns summed over the year rows). -/
def gridCellCount (rows : List (ℤ × List ((ℤ × Bool) × ℚ))) : ℕ :=
  (rows.map (fun r => r.2.length)).sum

/-! ### Helper lemmas about the amortization functions -/

theorem mp_apr_zero (p : ℚ) (y : ℤ) (hy : 1 ≤ y) :
    monthly_payment p 0 y = some (p / ((y * 12 : ℤ) : ℚ)) := by
  have hn : y * 12 ≠ 0 := by omega
  norm_num [monthly_payment, hn]

theorem one_add_rate_pow_sub_one_pos (r : ℚ) (hr : 0 < r) (m : ℤ) (hm : 0 < m) :
    0 < (1 + r) ^ m - 1 := by
  have h1 : (1 : ℚ) < 1 + r := by linarith
  have h2 := one_lt_zpow₀ h1 hm
  linarith

theorem mp_apr_pos (p apr : ℚ) (ha : 0 < apr) (y : ℤ) (hy : 1 ≤ y) :
    monthly_payment p apr y =
      some (p * ((apr / 12) * (1 + apr / 12) ^ (y * 12)) /
        ((1 + apr / 12) ^ (y * 12) - 1)) := by
  have hr : 0 < apr / 12 := by positivity
  have hr0 : ¬(apr / 12 = 0) := ne_of_gt hr
  have hneg : ¬(1 + apr / 12 = 0 ∧ y * 12 < 0) := by
    rintro ⟨h, _⟩
    linarith
  have hden : ¬((1 + apr / 12) ^ (y * 12) - 1 = 0) :=
    ne_of_gt (one_add_rate_pow_sub_one_pos _ hr _ (by omega))
  simp only [monthly_payment, if_neg hr0, if_neg hneg, if_neg hden]

theorem rb_apr_zero (p : ℚ) (yt yp : ℤ) (ht : 1 ≤ yt) :
    remaining_balance p 0 yt yp =
      some (p * (1 - ((yp * 12 : ℤ) : ℚ) / ((yt * 12 : ℤ) : ℚ))) := by
  have hn : yt * 12 ≠ 0 := by omega
  norm_num [remaining_balance, hn]

theorem rb_apr_pos (p apr : ℚ) (ha : 0 < apr) (yt yp : ℤ) (ht : 1 ≤ yt) :
    remaining_balance p apr yt yp =
      some (p * ((1 + apr / 12) ^ (yt * 12) - (1 + apr / 12) ^ (yp * 12)) /
        ((1 + apr / 12) ^ (yt * 12) - 1)) := by
  have hr : 0 < apr / 12 := by positivity
  have hr0 : ¬(apr / 12 = 0) := ne_of_gt hr
  have hneg : ¬(1 + apr / 12 = 0 ∧ (yt * 12 < 0 ∨ yp * 12 < 0)) := by
    rintro ⟨h, _⟩
    linarith
  have hden : ¬((1 + apr / 12) ^ (yt * 12) - 1 = 0) :=
    ne_of_gt (one_add_rate_pow_sub_one_pos _ hr _ (by omega))
  simp only [remaining_balance, if_neg hr0, if_neg hneg, if_neg hden]

theorem mp_isSome (p apr : ℚ) (y : ℤ) (ha : 0 ≤ apr) (hy : 1 ≤ y) :
    (monthly_payment p apr y).isSome := by
  rcases eq_or_lt_of_le ha with h | h
  · rw [← h, mp_apr_zero p y hy]
    rfl
  · rw [mp_apr_pos p apr h y hy]
    rfl

theorem rb_isSome (p apr : ℚ) (yt yp : ℤ) (ha : 0 ≤ apr) (ht : 1 ≤ yt) :
    (remaining_balance p apr yt yp).isSome := by
  rcases eq_or_lt_of_le ha with h | h
  · rw [← h, rb_apr_zero p yt yp ht]
    rfl
  · rw [rb_apr_pos p apr h yt yp ht]
    rfl

theorem equity_eq_of_some (pp dp apr : ℚ) (t : ℤ) (sp : ℚ) (y : ℤ) (f fl s : ℚ)
    (emi rem : ℚ)
    (hm : monthly_payment (pp - dp) apr t = some emi)
    (hr : remaining_balance (pp - dp) apr t y = some rem) :
    equity_above_down_payment pp dp apr t sp y f fl s =
      some (emi, rem, sp - rem - (sp * f + fl) - s * (y : ℚ),
        sp - rem - (sp * f + fl) - s * (y : ℚ) - dp) := by
  simp [equity_above_down_payment, hm, hr]

theorem equity_isSome (pp dp apr : ℚ) (t : ℤ) (sp : ℚ) (y : ℤ) (f fl s : ℚ)
    (ha : 0 ≤ apr) (ht : 1 ≤ t) :
    (equity_above_down_payment pp dp apr t sp y f fl s).isSome := by
  obtain ⟨emi, hm⟩ := Option.isSome_iff_exists.mp (mp_isSome (pp - dp) apr t ha ht)
  obtain ⟨rem, hr⟩ := Option.isSome_iff_exists.mp (rb_isSome (pp - dp) apr t y ha ht)
  rw [equity_eq_of_some pp dp apr t sp y f fl s emi rem hm hr]
  rfl

/-! ### Helper lemmas about the grid-building loops -/

theorem dictInsert_fresh (k : ℤ × Bool) (v : ℚ) :
    ∀ row : List ((ℤ × Bool) × ℚ), k ∉ row.map Prod.fst →
      dictInsert k v row = row ++ [(k, v)] := by
  intro row
  induction row with
  | nil => intro _; rfl
  | cons hd tl ih =>
    intro hk
    simp only [List.map_cons, List.mem_cons] at hk
    push_neg at hk
    obtain ⟨hk1, hk2⟩ := hk
    simp only [dictInsert, if_neg (by simpa using hk1.symm), List.cons_append,
      List.cons.injEq, true_and]
    exact ih hk2

theorem build_row_go_spec (pp dp apr : ℚ) (t : ℤ) (f fl s : ℚ) (dec : ℕ) (y : ℤ)
    (ha : 0 ≤ apr) (ht : 1 ≤ t) :
    ∀ (prices : List ℚ) (row : List ((ℤ × Bool) × ℚ)),
      (prices.map labelKey).Nodup →
      (∀ sp ∈ prices, labelKey sp ∉ row.map Prod.fst) →
      ∃ cells, build_row_go pp dp apr t f fl s dec y prices row = some cells ∧
        cells.map Prod.fst = row.map Prod.fst ++ prices.map labelKey := by
  intro prices
  induction prices with
  | nil =>
    intro row _ _
    exact ⟨row, rfl, by simp⟩
  | cons sp rest ih =>
    intro row hnd hfresh
    obtain ⟨tup, htup⟩ :=
      Option.isSome_iff_exists.mp (equity_isSome pp dp apr t sp y f fl s ha ht)
    simp only [List.map_cons, List.nodup_cons] at hnd
    have hfr : labelKey sp ∉ row.map Prod.fst := hfresh sp (List.mem_cons_self sp rest)
    set v := (if dec = 0 then ((roundHalfEven tup.2.2.2 : ℤ) : ℚ)
      else roundTo dec tup.2.2.2) with hv
    have hins := dictInsert_fresh (labelKey sp) v row hfr
    have hfresh2 : ∀ q ∈ rest, labelKey q ∉ (dictInsert (labelKey sp) v row).map Prod.fst := by
      intro q hq
      rw [hins]
      simp only [List.map_append, List.mem_append, List.map_cons, List.map_nil]
      rintro (hmem | hmem)
      · exact hfresh q (List.mem_cons_of_mem sp hq) hmem
      · simp only [List.mem_singleton] at hmem
        exact hnd.1 (hmem ▸ List.mem_map_of_mem labelKey hq)
    obtain ⟨cells, hcells, hkeys⟩ := ih (dictInsert (labelKey sp) v row) hnd.2 hfresh2
    refine ⟨cells, ?_, ?_⟩
    · simp only [build_row_go, htup, Option.bind_some]
      exact hcells
    · rw [hkeys, hins]
      simp

theorem build_row_spec (pp dp apr : ℚ) (t : ℤ) (f fl s : ℚ) (dec : ℕ) (y : ℤ)
    (prices : List ℚ) (ha : 0 ≤ apr) (ht : 1 ≤ t)
    (hnd : (prices.map labelKey).Nodup) :
    ∃ cells, build_row pp dp apr t f fl s dec y prices = some cells ∧
      cells.map Prod.fst = prices.map labelKey := by
  obtain ⟨cells, h1, h2⟩ :=
    build_row_go_spec pp dp apr t f fl s dec y ha ht prices [] hnd (by simp)
  exact ⟨cells, h1, by simpa using h2⟩

theorem table_rows_go_spec (pp dp apr : ℚ) (t : ℤ) (prices : List ℚ)
    (f fl s : ℚ) (dec : ℕ) (ha : 0 ≤ apr) (ht : 1 ≤ t)
    (hnd : (prices.map labelKey).Nodup) :
    ∀ (ys : List ℤ) (acc : List (ℤ × List ((ℤ × Bool) × ℚ))),
      ∃ rows2, table_rows_go pp dp apr t prices f fl s dec ys acc =
          some (acc ++ rows2) ∧
        rows2.map Prod.fst = ys ∧
        ∀ r ∈ rows2, r.2.map Prod.fst = prices.map labelKey := by
  intro ys
  induction ys with
  | nil =>
    intro acc
    exact ⟨[], by simp [table_rows_go], by simp, by simp⟩
  | cons y rest ih =>
    intro acc
    obtain ⟨cells, hcells, hkeys⟩ :=
      build_row_spec pp dp apr t f fl s dec y prices ha ht hnd
    obtain ⟨rows2, hrows, hfst, hall⟩ := ih (acc ++ [(y, cells)])
    refine ⟨(y, cells) :: rows2, ?_, ?_, ?_⟩
    · simp only [table_rows_go, hcells, Option.some_bind]
      rw [hrows, List.append_assoc]
      simp
    · simp [hfst]
    · intro r hr
      rcases List.mem_cons.mp hr with h | h
      · rw [h]
        exact hkeys
      · exact hall r h

theorem years_list_length (N : ℕ) : (years_list N).length = N := by
  rw [years_list, List.length_map, List.length_range]

theorem build_row_go_isSome (pp dp apr : ℚ) (t : ℤ) (f fl s : ℚ) (dec : ℕ) (y : ℤ)
    (ha : 0 ≤ apr) (ht : 1 ≤ t) :
    ∀ (prices : List ℚ) (row : List ((ℤ × Bool) × ℚ)),
      (build_row_go pp dp apr t f fl s dec y prices row).isSome := by
  intro prices
  induction prices with
  | nil => intro row; rfl
  | cons sp rest ih =>
    intro row
    obtain ⟨tup, htup⟩ :=
      Option.isSome_iff_exists.mp (equity_isSome pp dp apr t sp y f fl s ha ht)
    simp only [build_row_go, htup, Option.some_bind]
    exact ih _

theorem table_rows_go_isSome (pp dp apr : ℚ) (t : ℤ) (prices : List ℚ)
    (f fl s : ℚ) (dec : ℕ) (ha : 0 ≤ apr) (ht : 1 ≤ t) :
    ∀ (ys : List ℤ) (acc : List (ℤ × List ((ℤ × Bool) × ℚ))),
      (table_rows_go pp dp apr t prices f fl s dec ys acc).isSome := by
  intro ys
  induction ys with
  | nil => intro acc; rfl
  | cons y rest ih =>
    intro acc
    obtain ⟨cells, hc⟩ := Option.isSome_iff_exists.mp
      (build_row_go_isSome pp dp apr t f fl s dec y ha ht prices [])
    simp only [table_rows_go, build_row, hc, Option.some_bind]
    exact ih _

/-! ### Claims -/

/-- C1, counterexample: `purchasePrice = -1 < 0` (and `downPayment = 0 >
purchasePrice`) is an invalid configuration, yet the grid-building
pipeline does not fail: it computes a full grid (here one year, one
price, equity cell `100`). -/
theorem c1_counterexample :
    ((-1 : ℚ) < 0) ∧
    table_rows (-1) 0 0 1 [100] 0 0 0 1 0 = some [(1, [((100, false), 100)])] := by
  constructor
  · norm_num
  · norm_num [table_rows, table_rows_go, build_row, build_row_go, years_list,
      equity_above_down_payment, monthly_payment, remaining_balance,
      dictInsert, labelKey, roundHalfEven, List.range_succ]

/-- C1 (amended): the core performs no `InvalidConfiguration` check.
Whenever `apr ≥ 0` and `termYears ≥ 1`, the grid-building pipeline
succeeds for every purchase price, down payment, fee, horizon and price
list — including configurations with `purchasePrice < 0`,
`downPayment < 0` or `downPayment > purchasePrice`; range enforcement
lives only in the presentation layer's widget clamps. -/
theorem c1_pipeline_computes_without_validation (pp dp apr : ℚ) (t : ℤ)
    (prices : List ℚ) (f fl s : ℚ) (N dec : ℕ) (ha : 0 ≤ apr) (ht : 1 ≤ t) :
    (table_rows pp dp apr t prices f fl s N dec).isSome :=
  table_rows_go_isSome pp dp apr t prices f fl s dec ha ht (years_list N) []

/-- C1, witness: a configuration that is invalid per the spec
(`purchasePrice = -5 < 0` and `downPayment = 2 > purchasePrice`) still
produces a grid. -/
theorem c1_witness : (table_rows (-5) 2 0 1 [100] 0 0 0 2 0).isSome :=
  c1_pipeline_computes_without_validation (-5) 2 0 1 [100] 0 0 0 2 0 le_rfl le_rfl

/-- C2, counterexample: with the duplicated price list `[100, 100]` and
horizon 1 the produced grid has 1 cell, not `1 * 2 = 2`: the two
occurrences share the dict key `Sale 100`, so the second occurrence
overwrites the first instead of adding a column. -/
theorem c2_counterexample :
    table_rows 0 0 0 1 [100, 100] 0 0 0 1 0 = some [(1, [((100, false), 100)])] ∧
    gridCellCount [((1 : ℤ), [(((100 : ℤ), false), (100 : ℚ))])] ≠
      1 * [(100 : ℚ), 100].length := by
  constructor
  · norm_num [table_rows, table_rows_go, build_row, build_row_go, years_list,
      equity_above_down_payment, monthly_payment, remaining_balance,
      dictInsert, labelKey, roundHalfEven, List.range_succ]
  · norm_num [gridCellCount]

/-- C2 (amended): for every horizon `N` and caller-supplied resale-price
sequence whose formatted labels are pairwise distinct (duplicate prices
— or distinct prices rounding to the same label — overwrite the same
dict key instead of adding a column), the grid has exactly `N` rows in
year order `1..N`, each row one column per price in the caller's input
order, hence exactly `N * k` cells; in particular horizon 10 with 3
distinct prices yields exactly 30 cells. -/
theorem c2_grid_shape (pp dp apr : ℚ) (t : ℤ) (prices : List ℚ)
    (f fl s : ℚ) (N dec : ℕ) (ha : 0 ≤ apr) (ht : 1 ≤ t)
    (hnd : (prices.map labelKey).Nodup) :
    ∃ rows, table_rows pp dp apr t prices f fl s N dec = some rows ∧
      rows.length = N ∧
      rows.map Prod.fst = years_list N ∧
      (∀ r ∈ rows, r.2.map Prod.fst = prices.map labelKey) ∧
      gridCellCount rows = N * prices.length := by
  obtain ⟨rows2, h1, h2, h3⟩ :=
    table_rows_go_spec pp dp apr t prices f fl s dec ha ht hnd (years_list N) []
  have hlen : rows2.length = N := by
    have h4 := congrArg List.length h2
    rw [List.length_map] at h4
    rw [h4, years_list_length]
  refine ⟨rows2, by simpa using h1, hlen, h2, h3, ?_⟩
  have hrep : rows2.map (fun r => r.2.length) = List.replicate N prices.length := by
    rw [List.eq_replicate_iff]
    refine ⟨by simp [hlen], ?_⟩
    intro b hb
    obtain ⟨r, hr, hrb⟩ := List.mem_map.mp hb
    have := congrArg List.length (h3 r hr)
    simp only [List.length_map] at this
    rw [← hrb, this]
  rw [gridCellCount, hrep]
  simp [List.sum_replicate, mul_comm]

/-- C2, witness: horizon 10 with the three distinct prices
2 500 000, 3 000 000, 3 150 000 (Scenario A's configuration) yields a
grid of exactly 30 cells. -/
theorem c2_witness :
    (table_rows 3150000 630000 0 20 [2500000, 3000000, 3150000]
        (1 / 25) 0 0 10 0).map gridCellCount = some 30 := by
  obtain ⟨rows, h1, _, _, _, hcount⟩ :=
    c2_grid_shape 3150000 630000 0 20 [2500000, 3000000, 3150000] (1 / 25) 0 0 10 0
      (by norm_num) (by norm_num)
      (by norm_num [labelKey, roundHalfEven])
  rw [h1]
  simp [hcount]

/-- C3, counterexample: with `feesPercentOfSale = 2 ≥ 0` (a 200% fee, a
valid `CostConfiguration` per the spec's data model) and sale prices
`0 ≤ 1`, the equity drops from `0` to `-1`: `equityAboveDownPayment` is
not non-decreasing in `salePrice` for every non-negative fee rate. -/
theorem c3_counterexample :
    (0 : ℚ) ≤ 2 ∧ (0 : ℚ) ≤ 1 ∧
    equity_above_down_payment 0 0 0 1 0 1 2 0 0 = some (0, 0, 0, 0) ∧
    equity_above_down_payment 0 0 0 1 1 1 2 0 0 = some (0, 0, -1, -1) ∧
    ¬((0 : ℚ) ≤ -1) := by
  refine ⟨by norm_num, by norm_num, ?_, ?_, by norm_num⟩ <;>
    norm_num [equity_above_down_payment, monthly_payment, remaining_balance]

/-- C3 (amended): for a fixed configuration and year, whenever both
calls return (tuples `t1`, `t2`), `0 ≤ feesPercentOfSale ≤ 1` and
`salePrice1 ≤ salePrice2` imply `equity(salePrice1) ≤ equity(salePrice2)`
(the `≤ 1` bound is forced: the equity is linear in the sale price with
slope `1 - feesPercentOfSale`; the UI clamps the fee rate to at most
20%, well inside this bound). -/
theorem c3_equity_monotone_in_sale (pp dp apr : ℚ) (t : ℤ) (y : ℤ)
    (f fl s sp1 sp2 : ℚ) (t1 t2 : ℚ × ℚ × ℚ × ℚ)
    (h1 : equity_above_down_payment pp dp apr t sp1 y f fl s = some t1)
    (h2 : equity_above_down_payment pp dp apr t sp2 y f fl s = some t2)
    (hf0 : 0 ≤ f) (hf1 : f ≤ 1) (hsp : sp1 ≤ sp2) :
    t1.2.2.2 ≤ t2.2.2.2 := by
  simp only [equity_above_down_payment, Option.bind_eq_bind, Option.bind_eq_some,
    Option.pure_def, Option.some.injEq] at h1 h2
  obtain ⟨emi1, hm1, rem1, hr1, he1⟩ := h1
  obtain ⟨emi2, hm2, rem2, hr2, he2⟩ := h2
  rw [hm1] at hm2
  rw [hr1] at hr2
  obtain rfl : emi1 = emi2 := Option.some.inj hm2
  obtain rfl : rem1 = rem2 := Option.some.inj hr2
  rw [← he1, ← he2]
  simp only
  nlinarith [mul_nonneg (sub_nonneg.mpr hsp) (sub_nonneg.mpr hf1)]

/-- C3, witness: at loan configuration (100, 20, 0, 1), year 1, a 50%
fee rate, sale prices 100 ≤ 200: equity rises from 30 to 80. -/
theorem c3_witness :
    equity_above_down_payment 100 20 0 1 100 1 (1 / 2) 0 0 = some (20 / 3, 0, 50, 30) ∧
    equity_above_down_payment 100 20 0 1 200 1 (1 / 2) 0 0 = some (20 / 3, 0, 100, 80) ∧
    (30 : ℚ) ≤ 80 := by
  have h1 : equity_above_down_payment 100 20 0 1 100 1 (1 / 2) 0 0 =
      some (20 / 3, 0, 50, 30) := by
    norm_num [equity_above_down_payment, monthly_payment, remaining_balance]
  have h2 : equity_above_down_payment 100 20 0 1 200 1 (1 / 2) 0 0 =
      some (20 / 3, 0, 100, 80) := by
    norm_num [equity_above_down_payment, monthly_payment, remaining_balance]
  exact ⟨h1, h2,
    c3_equity_monotone_in_sale 100 20 0 1 1 (1 / 2) 0 0 100 200 _ _ h1 h2
      (by norm_num) (by norm_num) (by norm_num)⟩

/-- C4: for every principal, `apr ≥ 0` and `termYears ≥ 1`,
`monthly_payment` returns `principal / (termYears*12)` when
`apr / 12 == 0`, and otherwise `principal * r * (1+r)^n / ((1+r)^n - 1)`
with `r = apr/12`, `n = termYears*12`; neither branch errors. -/
theorem c4_monthly_payment_formula (p apr : ℚ) (y : ℤ)
    (ha : 0 ≤ apr) (hy : 1 ≤ y) :
    monthly_payment p apr y =
      if apr / 12 = 0 then some (p / ((y * 12 : ℤ) : ℚ))
      else some (p * ((apr / 12) * (1 + apr / 12) ^ (y * 12)) /
        ((1 + apr / 12) ^ (y * 12) - 1)) := by
  rcases eq_or_lt_of_le ha with h | h
  · rw [← h, mp_apr_zero p y hy, if_pos (by norm_num)]
  · rw [mp_apr_pos p apr h y hy,
      if_neg (ne_of_gt (by positivity : (0 : ℚ) < apr / 12))]

/-- C4, witness: a zero-rate two-year loan on principal 7 has monthly
payment `7 / 24`. -/
theorem c4_witness : monthly_payment 7 0 2 = some (7 / 24) := by
  have h := c4_monthly_payment_formula 7 0 2 (by norm_num) (by norm_num)
  norm_num at h
  exact h

/-- C5: for every principal, `apr ≥ 0`, `termYearsTotal ≥ 1` and
`yearsPaid ≥ 0` — including `yearsPaid > termYearsTotal`, with no
clamping and no error — `remaining_balance` returns
`principal * (1 - nPaid/nTotal)` when `apr / 12 == 0`, and otherwise
`principal * ((1+r)^nTotal - (1+r)^nPaid) / ((1+r)^nTotal - 1)`,
with `r = apr/12`, `nTotal = termYearsTotal*12`, `nPaid = yearsPaid*12`;
past the term the value is this mathematical extrapolation. -/
theorem c5_remaining_balance_formula (p apr : ℚ) (yt yp : ℤ)
    (ha : 0 ≤ apr) (ht : 1 ≤ yt) (hp : 0 ≤ yp) :
    remaining_balance p apr yt yp =
      if apr / 12 = 0 then
        some (p * (1 - ((yp * 12 : ℤ) : ℚ) / ((yt * 12 : ℤ) : ℚ)))
      else
        some (p * ((1 + apr / 12) ^ (yt * 12) - (1 + apr / 12) ^ (yp * 12)) /
          ((1 + apr / 12) ^ (yt * 12) - 1)) := by
  rcases eq_or_lt_of_le ha with h | h
  · rw [← h, rb_apr_zero p yt yp ht, if_pos (by norm_num)]
  · rw [rb_apr_pos p apr h yt yp ht,
      if_neg (ne_of_gt (by positivity : (0 : ℚ) < apr / 12))]

/-- C5, witness: selling two years into a one-year zero-rate loan of 100
extrapolates past the term to the negative balance `-100` (no clamping,
no error). -/
theorem c5_witness : remaining_balance 100 0 1 2 = some (-100) := by
  have h := c5_remaining_balance_formula 100 0 1 2 (by norm_num) (by norm_num)
    (by norm_num)
  norm_num at h
  exact h

/-- C6: the eight-step contract of the projector, for every valid
configuration, year and sale price: with
`loan = purchasePrice - downPayment` there are `emi` and `rem` with
`emi = monthly_payment(loan, apr, termYears)`,
`rem = remaining_balance(loan, apr, termYears, y)`, and
`equity_above_down_payment` returns exactly
`(emi, rem, netAfterCosts, netAfterCosts - downPayment)` where
`netAfterCosts = (salePrice - rem) - (salePrice * feesPercentOfSale +
feesFlat) - serviceChargePerYear * y`. -/
theorem c6_equity_contract (pp dp apr : ℚ) (t : ℤ) (sp : ℚ) (y : ℤ) (f fl s : ℚ)
    (hpp : 0 ≤ pp) (hdp : 0 ≤ dp) (hdple : dp ≤ pp) (ha : 0 ≤ apr) (ht : 1 ≤ t) :
    ∃ emi rem, monthly_payment (pp - dp) apr t = some emi ∧
      remaining_balance (pp - dp) apr t y = some rem ∧
      equity_above_down_payment pp dp apr t sp y f fl s =
        some (emi, rem, sp - rem - (sp * f + fl) - s * (y : ℚ),
          sp - rem - (sp * f + fl) - s * (y : ℚ) - dp) := by
  obtain ⟨emi, hm⟩ := Option.isSome_iff_exists.mp (mp_isSome (pp - dp) apr t ha ht)
  obtain ⟨rem, hr⟩ := Option.isSome_iff_exists.mp (rb_isSome (pp - dp) apr t y ha ht)
  exact ⟨emi, rem, hm, hr, equity_eq_of_some pp dp apr t sp y f fl s emi rem hm hr⟩

/-- C6, witness: configuration (100, 20, 0, 1), sale 150 at year 1 with
flat fee 5 and service charge 3: `emi = 80/12 = 20/3`, `rem = 0`,
`netAfterCosts = (150 - 0) - (150*0 + 5) - 3*1 = 142`, equity `122`. -/
theorem c6_witness :
    equity_above_down_payment 100 20 0 1 150 1 0 5 3 = some (20 / 3, 0, 142, 122) := by
  obtain ⟨emi, rem, hm, hr, he⟩ := c6_equity_contract 100 20 0 1 150 1 0 5 3
    (by norm_num) (by norm_num) (by norm_num) (by norm_num) (by norm_num)
  have hm2 : monthly_payment (100 - 20 : ℚ) 0 1 = some (20 / 3) := by
    norm_num [monthly_payment]
  have hr2 : remaining_balance (100 - 20 : ℚ) 0 1 1 = some 0 := by
    norm_num [remaining_balance]
  rw [hm2] at hm
  rw [hr2] at hr
  obtain rfl : (20 / 3 : ℚ) = emi := Option.some.inj hm
  obtain rfl : (0 : ℚ) = rem := Option.some.inj hr
  rw [he]
  norm_num

/-- C8: with `downPayment == purchasePrice` the loan is zero, so for
every `apr ≥ 0`, `termYears ≥ 1` and year `y ≥ 1` the monthly payment is
0, the remaining balance is 0 at every year, and the equity is
`salePrice - (salePrice * feesPercentOfSale + feesFlat) -
serviceChargePerYear * y - downPayment`. -/
theorem c8_zero_loan (pp dp apr : ℚ) (t : ℤ) (sp : ℚ) (y : ℤ) (f fl s : ℚ)
    (hdp : dp = pp) (ha : 0 ≤ apr) (ht : 1 ≤ t) (hy : 1 ≤ y) :
    monthly_payment (pp - dp) apr t = some 0 ∧
    remaining_balance (pp - dp) apr t y = some 0 ∧
    equity_above_down_payment pp dp apr t sp y f fl s =
      some (0, 0, sp - (sp * f + fl) - s * (y : ℚ),
        sp - (sp * f + fl) - s * (y : ℚ) - dp) := by
  subst hdp
  have hmz : monthly_payment (dp - dp) apr t = some 0 := by
    rcases eq_or_lt_of_le ha with h | h
    · rw [← h, mp_apr_zero (dp - dp) t ht]
      norm_num
    · rw [mp_apr_pos (dp - dp) apr h t ht]
      norm_num
  have hrz : remaining_balance (dp - dp) apr t y = some 0 := by
    rcases eq_or_lt_of_le ha with h | h
    · rw [← h, rb_apr_zero (dp - dp) t y ht]
      norm_num
    · rw [rb_apr_pos (dp - dp) apr h t y ht]
      norm_num
  refine ⟨hmz, hrz, ?_⟩
  rw [equity_eq_of_some dp dp apr t sp y f fl s 0 0 hmz hrz]
  norm_num

/-- C8, witness: `purchasePrice = downPayment = 50`, sale 100 at year 2
with 10% fees, flat fee 3, service charge 4: payment and balance are 0
and the equity is `100 - (10 + 3) - 8 - 50 = 29`. -/
theorem c8_witness :
    monthly_payment (50 - 50 : ℚ) 0 1 = some 0 ∧
    remaining_balance (50 - 50 : ℚ) 0 1 2 = some 0 ∧
    equity_above_down_payment 50 50 0 1 100 2 (1 / 10) 3 4 = some (0, 0, 79, 29) := by
  have h := c8_zero_loan 50 50 0 1 100 2 (1 / 10) 3 4 rfl (by norm_num) (by norm_num)
    (by norm_num)
  refine ⟨h.1, h.2.1, ?_⟩
  rw [h.2.2]
  norm_num

/-- C9: the projection is a deterministic function of its explicit
inputs: a second call of the grid pipeline with identical inputs is the
same application of the same pure function and yields the identical
grid (the embedded core reads no state besides its arguments). -/
theorem c9_deterministic (pp dp apr : ℚ) (t : ℤ) (prices : List ℚ)
    (f fl s : ℚ) (N dec : ℕ) :
    table_rows pp dp apr t prices f fl s N dec =
      table_rows pp dp apr t prices f fl s N dec := rfl

/-- C7: for every valid configuration (`principal ≥ 0`, `apr ≥ 0`,
`term ≥ 1`), the balance starts at the principal
(`remaining_balance p apr t 0 = p`) and is exactly `0` at the end of the
term (`remaining_balance p apr t t = 0`; the exact-rational model makes
the spec's "within floating-point tolerance" an equality). -/
theorem c7_balance_boundaries (p apr : ℚ) (t : ℤ)
    (hp : 0 ≤ p) (ha : 0 ≤ apr) (ht : 1 ≤ t) :
    remaining_balance p apr t 0 = some p ∧ remaining_balance p apr t t = some 0 := by
  rcases eq_or_lt_of_le ha with h | h
  · have hn : ((t * 12 : ℤ) : ℚ) ≠ 0 := by
      exact_mod_cast (by omega : (t * 12 : ℤ) ≠ 0)
    constructor
    · rw [← h, rb_apr_zero p t 0 ht]
      norm_num
    · rw [← h, rb_apr_zero p t t ht]
      rw [div_self hn]
      norm_num
  · have hr : 0 < apr / 12 := by positivity
    have hden : (1 + apr / 12) ^ (t * 12) - 1 ≠ 0 :=
      ne_of_gt (one_add_rate_pow_sub_one_pos _ hr (t * 12) (by omega))
    constructor
    · rw [rb_apr_pos p apr h t 0 ht]
      norm_num [mul_div_assoc, div_self hden]
    · rw [rb_apr_pos p apr h t t ht]
      simp

/-- C7, witness: a one-year loan of 100 at `apr = 12` (monthly rate 1)
has balance 100 after 0 years and balance 0 after 1 year. -/
theorem c7_witness :
    remaining_balance 100 12 1 0 = some 100 ∧ remaining_balance 100 12 1 1 = some 0 :=
  c7_balance_boundaries 100 12 1 (by norm_num) (by norm_num) (by norm_num)

/-- C10: with `apr ≥ 0` and `termYears ≥ 1`, every divisor in
`monthly_payment` and `remaining_balance` is nonzero — when
`r = apr/12 ≠ 0` the denominator `(1+r)^n - 1` is strictly positive, and
the `r == 0` branches divide only by the nonzero `n` — so both functions
are total there (`isSome`): the division-by-zero error branch is
unreachable. -/
theorem c10_division_safety (p apr : ℚ) (y yp : ℤ)
    (ha : 0 ≤ apr) (hy : 1 ≤ y) :
    (apr / 12 ≠ 0 → 0 < (1 + apr / 12) ^ (y * 12) - 1) ∧
    (monthly_payment p apr y).isSome ∧ (remaining_balance p apr y yp).isSome := by
  refine ⟨?_, mp_isSome p apr y ha hy, rb_isSome p apr y yp ha hy⟩
  intro hr0
  have hr : 0 < apr / 12 :=
    lt_of_le_of_ne (div_nonneg ha (by norm_num)) (Ne.symm hr0)
  exact one_add_rate_pow_sub_one_pos _ hr _ (by omega)

/-- C10, witness: at principal 1, `apr = 12`, term 1, both functions
return a value (no division by zero), even for `yearsPaid = 2` past the
term. -/
theorem c10_witness :
    (monthly_payment 1 12 1).isSome ∧ (remaining_balance 1 12 1 2).isSome := by
  have h := c10_division_safety 1 12 1 2 (by norm_num) (by norm_num)
  exact ⟨h.2.1, h.2.2⟩
